import Mathlib

set_option autoImplicit false

/-!
Shallow embedding of `uqcsbot/whatweekisit.py`: the calendar parser
(`get_semester_times`), the week resolver (`get_semester_week`), the
command-layer date helpers (`date_to_string`, `string_to_date`) and the
NotFound classification performed by the `whatweekisit` command.

Modelling conventions:
- All datetimes in the source are midnights carrying the single fixed zone
  `Australia/Brisbane`; no zone conversion ever happens, so a datetime is
  modelled as a civil `Date` (year, month, day).  Chronological comparison
  of such datetimes is comparison of day numbers (`rata`).
- Python exceptions escaping a function are modelled with `Except`.
- Python `str` values are modelled as `String` / `List Char`; the relevant
  operations (`split`, `replace`, `strip`, `in`) are defined below on
  `List Char`, restricted to the ASCII whitespace forms the calendar data
  uses.
- `datetime.strptime` is modelled for the two fixed format strings the
  source uses, `"%d %b %Y"` and `"%d/%m/%Y"`: fields are the maximal
  digit / alpha tokens the CPython regex would match, and the resulting
  numbers are validated exactly as the `datetime` constructor validates
  them (day against month length, year at least MINYEAR = 1).
-/

namespace Whatweekisit

/-! ### Civil dates -/

/-- A civil date in the fixed `Australia/Brisbane` zone. -/
structure Date where
  y : Nat
  m : Nat
  d : Nat
  deriving DecidableEq, Repr

/-- Gregorian leap-year rule, as used by the `datetime` module. -/
def isLeap (y : Nat) : Bool := y % 4 == 0 && (y % 100 != 0 || y % 400 == 0)

/-- Number of days in month `m` of year `y`. -/
def daysInMonth (y m : Nat) : Nat :=
  if m = 2 then (if isLeap y then 29 else 28)
  else if m = 4 ∨ m = 6 ∨ m = 9 ∨ m = 11 then 30
  else 31

/-- Day number of a civil date (days since 0000-03-01, proleptic Gregorian;
the standard days-from-civil formula).  Subtracting two `rata` values gives
the same whole-day difference that subtracting two midnight datetimes in
one zone gives in Python. -/
def rata (dt : Date) : Nat :=
  let y := if dt.m ≤ 2 then dt.y - 1 else dt.y
  let m := if dt.m ≤ 2 then dt.m + 12 else dt.m
  365 * y + y / 4 - y / 100 + y / 400 + (153 * (m - 3) + 2) / 5 + (dt.d - 1)

/-- Chronological order on datetimes (Python `<=` on timezone-aware
midnights in the one fixed zone). -/
def dateLE (a b : Date) : Bool := decide (rata a ≤ rata b)

/-- Full English weekday name, as `datetime.strftime` with `%A` produces.
Calibration: `rata` of 1970-01-01 is 719468 which is 1 mod 7, and that day
was a Thursday. -/
def weekdayName (dt : Date) : String :=
  match rata dt % 7 with
  | 0 => "Wednesday"
  | 1 => "Thursday"
  | 2 => "Friday"
  | 3 => "Saturday"
  | 4 => "Sunday"
  | 5 => "Monday"
  | _ => "Tuesday"

/-! ### String helpers (Python string operations used by the source) -/

/-- ASCII whitespace, the set Python `str.strip` and `strptime` whitespace
handling use on this data. -/
def pyIsSpace (c : Char) : Bool :=
  c = ' ' || c = '\t' || c = '\n' || c = '\r' || c = '\x0b' || c = '\x0c'

/-- Python `str.strip()`: drop leading and trailing whitespace. -/
def stripChars (l : List Char) : List Char :=
  ((l.dropWhile pyIsSpace).reverse.dropWhile pyIsSpace).reverse

/-- Python `text.replace("\xa0", " ")`. -/
def replaceNbsp (l : List Char) : List Char :=
  l.map fun c => if c = ' ' then ' ' else c

/-- The separator literal the source splits on: the mojibake form of an en
dash (UTF-8 bytes of U+2013 decoded as cp1252), exactly the three
characters appearing in the Python string literal. -/
def SEP : List Char := ['â', '€', '“']

/-- Python `text.split(SEP, 1)[0]`: everything before the first occurrence
of the separator, or the whole text when the separator is absent. -/
def beforeSep : List Char → List Char
  | [] => []
  | c :: rest => if SEP.isPrefixOf (c :: rest) then [] else c :: beforeSep rest

/-- Python substring test `needle in hay`. -/
def containsSub (needle : List Char) : List Char → Bool
  | [] => needle.isEmpty
  | c :: rest => needle.isPrefixOf (c :: rest) || containsSub needle rest

/-- Substring test on `String`. -/
def hasSub (needle hay : String) : Bool := containsSub needle.data hay.data

/-! ### Number and date-token parsing (model of `datetime.strptime`) -/

/-- Value of an ASCII digit character. -/
def toDigit (c : Char) : Option Nat :=
  if '0' ≤ c ∧ c ≤ '9' then some (c.toNat - 48) else none

/-- Accumulate the decimal value of a digit string; fails on a non-digit. -/
def parseDigitsAux (acc : Nat) : List Char → Option Nat
  | [] => some acc
  | c :: rest =>
    match toDigit c with
    | some d => parseDigitsAux (acc * 10 + d) rest
    | none => none

/-- A numeric `strptime` field: nonempty, at most `maxLen` digits. -/
def parseField (maxLen : Nat) (l : List Char) : Option Nat :=
  if l = [] ∨ maxLen < l.length then none else parseDigitsAux 0 l

/-- ASCII lowercasing of one character (the month tokens are ASCII). -/
def lowerChar (c : Char) : Char :=
  match c with
  | 'A' => 'a' | 'B' => 'b' | 'C' => 'c' | 'D' => 'd' | 'E' => 'e' | 'F' => 'f'
  | 'G' => 'g' | 'H' => 'h' | 'I' => 'i' | 'J' => 'j' | 'K' => 'k' | 'L' => 'l'
  | 'M' => 'm' | 'N' => 'n' | 'O' => 'o' | 'P' => 'p' | 'Q' => 'q' | 'R' => 'r'
  | 'S' => 's' | 'T' => 't' | 'U' => 'u' | 'V' => 'v' | 'W' => 'w' | 'X' => 'x'
  | 'Y' => 'y' | 'Z' => 'z' | c2 => c2

/-- ASCII lowercasing of a string. -/
def lowerString (s : String) : String := String.mk (s.data.map lowerChar)

/-- Month number from a `%b` abbreviated month name (C locale names;
`strptime` matches them case-insensitively). -/
def monthFromAbbrev (s : String) : Option Nat :=
  match lowerString s with
  | "jan" => some 1
  | "feb" => some 2
  | "mar" => some 3
  | "apr" => some 4
  | "may" => some 5
  | "jun" => some 6
  | "jul" => some 7
  | "aug" => some 8
  | "sep" => some 9
  | "oct" => some 10
  | "nov" => some 11
  | "dec" => some 12
  | _ => none

/-- Split on whitespace runs, dropping empty tokens (the `\s+` that a
literal space in a `strptime` format string matches). -/
def splitWsAux : List Char → List Char → List (List Char)
  | [], acc => if acc.isEmpty then [] else [acc.reverse]
  | c :: rest, acc =>
    if pyIsSpace c then
      if acc.isEmpty then splitWsAux rest []
      else acc.reverse :: splitWsAux rest []
    else splitWsAux rest (c :: acc)

/-- Whitespace tokenization of a character list. -/
def splitWs (l : List Char) : List (List Char) := splitWsAux l []

/-- A `%Y` field: the CPython `_strptime` pattern for `%Y` matches exactly
four digits. -/
def parseYear (l : List Char) : Option Nat :=
  if l.length = 4 then parseDigitsAux 0 l else none

/-- True when the list neither starts nor ends with whitespace: the
`_strptime` regex is anchored at both ends, so edge whitespace that no
format directive covers makes the parse fail. -/
def noEdgeWs (l : List Char) : Bool :=
  !pyIsSpace (l.headD 'x') && !pyIsSpace (l.getLastD 'x')

/-- Model of `datetime.strptime(s, "%d %b %Y")` followed by
`.replace(tzinfo=ZoneInfo("Australia/Brisbane"))`: a 1-2 digit day, an
abbreviated month name and an exactly-4-digit year, separated by
whitespace runs, with no leading or trailing whitespace, and the values
validated as the `datetime` constructor validates them. -/
def strptimeDMY (s : String) : Option Date :=
  if noEdgeWs s.data then
    match splitWs s.data with
    | [dTok, mTok, yTok] =>
      match parseField 2 dTok, monthFromAbbrev (String.mk mTok), parseYear yTok with
      | some dv, some mv, some yv =>
        if 1 ≤ dv ∧ dv ≤ 31 ∧ 1 ≤ yv ∧ dv ≤ daysInMonth yv mv then some ⟨yv, mv, dv⟩
        else none
      | _, _, _ => none
    | _ => none
  else none

/-- Split on every slash, keeping empty pieces. -/
def splitSlash : List Char → List (List Char)
  | [] => [[]]
  | c :: rest =>
    if c = '/' then [] :: splitSlash rest
    else
      match splitSlash rest with
      | t :: ts => (c :: t) :: ts
      | [] => [[c]]

/-- Model of `string_to_date` from the source:
`datetime.strptime(date, "%d/%m/%Y")` with the fixed Brisbane zone
attached.  A 1-2 digit day, a 1-2 digit month (the `%m` pattern only
matches 1..12) and an exactly-4-digit year, separated by literal slashes,
with constructor validation.  Every field is digit-only, so field parsing
already rejects any whitespace. -/
def string_to_date (s : String) : Option Date :=
  match splitSlash s.data with
  | [dTok, mTok, yTok] =>
    match parseField 2 dTok, parseField 2 mTok, parseYear yTok with
    | some dv, some mv, some yv =>
      if 1 ≤ dv ∧ dv ≤ 31 ∧ 1 ≤ mv ∧ mv ≤ 12 ∧ 1 ≤ yv ∧ dv ≤ daysInMonth yv mv then
        some ⟨yv, mv, dv⟩
      else none
    | _, _, _ => none
  | _ => none

/-- Digit character of `n` (defined for 0..9, defaulting elsewhere). -/
def dchar (n : Nat) : Char :=
  match n with
  | 0 => '0' | 1 => '1' | 2 => '2' | 3 => '3' | 4 => '4'
  | 5 => '5' | 6 => '6' | 7 => '7' | 8 => '8' | 9 => '9'
  | _ => '0'

/-- Two-digit zero-padded numeral, as `%d` and `%m` format. -/
def pad2 (n : Nat) : List Char := [dchar (n / 10), dchar (n % 10)]

/-- Four-digit numeral (the shape `%Y` produces for years 1000-9999). -/
def pad4 (n : Nat) : List Char :=
  [dchar (n / 1000), dchar (n / 100 % 10), dchar (n / 10 % 10), dchar (n % 10)]

/-- Decimal digits of `n` with no zero padding, which is what glibc
`strftime` emits for `%Y` (years below 1000 come out with fewer than four
digits).  The explicit branches cover the whole `datetime` year domain
1..9999 and unfold conveniently; beyond it the general decimal conversion
is used. -/
def yearChars (n : Nat) : List Char :=
  if n < 10 then [dchar n]
  else if n < 100 then [dchar (n / 10), dchar (n % 10)]
  else if n < 1000 then [dchar (n / 100), dchar (n / 10 % 10), dchar (n % 10)]
  else if n < 10000 then pad4 n
  else Nat.toDigits 10 n

/-- Model of `date_to_string` from the source:
`date.strftime("%d/%m/%Y")`.  Day and month are zero-padded to two
digits; the year is printed unpadded, as glibc `%Y` prints it. -/
def date_to_string (dt : Date) : String :=
  String.mk (pad2 dt.d ++ ('/' :: (pad2 dt.m ++ ('/' :: yearChars dt.y))))

/-! ### The calendar parser (`get_semester_times`) -/

/-- The `Semester` NamedTuple as annotated in the source: both dates are
declared as `datetime`, not optional. -/
structure Semester where
  name : String
  start_date : Date
  end_date : Date
  deriving DecidableEq, Repr

/-- What the source actually constructs: `Semester(**semester)` from a
dict whose date slots were initialised to `None`, so either date may be
absent.  Python performs no check at construction. -/
structure RawSemester where
  name : String
  start_date : Option Date
  end_date : Option Date
  deriving DecidableEq, Repr

/-- The mutable dict accumulated while scanning the list items of one
accordion block. -/
structure SemRec where
  start_date : Option Date
  end_date : Option Date
  deriving DecidableEq, Repr

/-- A Python exception escaping the parser (`ValueError` from
`datetime.strptime` on a malformed date token). -/
inductive ParseErr where
  | dateMalformed
  deriving DecidableEq, Repr

instance {ε α : Type} [DecidableEq ε] [DecidableEq α] : DecidableEq (Except ε α) :=
  fun x y =>
    match x, y with
    | .ok a, .ok b =>
      if h : a = b then .isTrue (by rw [h]) else .isFalse fun hh => h (Except.ok.inj hh)
    | .error a, .error b =>
      if h : a = b then .isTrue (by rw [h]) else .isFalse fun hh => h (Except.error.inj hh)
    | .ok _, .error _ => .isFalse fun hh => Except.noConfusion hh
    | .error _, .ok _ => .isFalse fun hh => Except.noConfusion hh

/-- An accordion item block: its `<h4>` title and the text of the `<li>`
entries of its content div. -/
structure Accordion where
  title : String
  items : List String
  deriving DecidableEq, Repr

/-- The markup, as the source consumes it: the document-order stream of
elements.  Only `<h3>` year headings and accordion-item divs are inspected
by the source; every other element falls through the loop body. -/
inductive Node where
  | h3 (text : String)
  | accordion (a : Accordion)
  | other
  deriving DecidableEq, Repr

/-- The marker phrase selecting the start-date line. -/
def startMarker : String := "Classes start"

/-- First end-date marker: `f"{semester_name} classes end"`. -/
def endMarkerA (name : String) : String := name ++ " classes end"

/-- Second end-date marker: `f"{semester_name} ends"`. -/
def endMarkerB (name : String) : String := name ++ " ends"

/-- The nested `get_date` closure: take the text before the separator,
replace non-breaking spaces, strip, and parse together with the year
heading text as `"%d %b %Y"` in the fixed Brisbane zone.  `none` models
`strptime` raising `ValueError`. -/
def get_date (text yearText : String) : Option Date :=
  strptimeDMY (String.mk (stripChars (replaceNbsp (beforeSep text.data))) ++ " " ++ yearText)

/-- One iteration of the loop over a block's list items: the start marker
is tested first; a matching line overwrites the stored date. -/
def processItem (yearText title : String) (r : SemRec) (text : String) :
    Except ParseErr SemRec :=
  if hasSub startMarker text then
    match get_date text yearText with
    | some dt => .ok { r with start_date := some dt }
    | none => .error .dateMalformed
  else if hasSub (endMarkerA title) text || hasSub (endMarkerB title) text then
    match get_date text yearText with
    | some dt => .ok { r with end_date := some dt }
    | none => .error .dateMalformed
  else .ok r

/-- The loop over all list items of one block. -/
def processItems (yearText title : String) (r : SemRec) : List String →
    Except ParseErr SemRec
  | [] => .ok r
  | t :: rest =>
    match processItem yearText title r t with
    | .ok r2 => processItems yearText title r2 rest
    | .error e => .error e

/-- Processing one recognized accordion block: scan its items starting
from the all-`None` dict, then build the record (unchecked, as
`Semester(**semester)` is). -/
def processBlock (yearText : String) (a : Accordion) : Except ParseErr RawSemester :=
  match processItems yearText a.title ⟨none, none⟩ a.items with
  | .ok r => .ok ⟨a.title, r.start_date, r.end_date⟩
  | .error e => .error e

/-- The scan of the elements following one `<h3>` year heading: stop at
the next `<h3>`; on an accordion div, a title other than the two teaching
semesters breaks out of the scan for this year. -/
def scanYear (yearText : String) : List Node → Except ParseErr (List RawSemester)
  | [] => .ok []
  | Node.h3 _ :: _ => .ok []
  | Node.accordion a :: rest =>
    if a.title = "Semester 1" ∨ a.title = "Semester 2" then
      match processBlock yearText a with
      | .error e => .error e
      | .ok s =>
        match scanYear yearText rest with
        | .error e => .error e
        | .ok srest => .ok (s :: srest)
    else .ok []
  | Node.other :: rest => scanYear yearText rest

/-- Model of `get_semester_times`: for every `<h3>` heading, scan the
elements after it (up to the next `<h3>`), concatenating the per-year
results in document order; any `strptime` failure aborts the whole call. -/
def get_semester_times : List Node → Except ParseErr (List RawSemester)
  | [] => .ok []
  | Node.h3 y :: rest =>
    match scanYear y rest with
    | .error e => .error e
    | .ok s1 =>
      match get_semester_times rest with
      | .error e => .error e
      | .ok s2 => .ok (s1 ++ s2)
  | Node.accordion _ :: rest => get_semester_times rest
  | Node.other :: rest => get_semester_times rest

/-! ### The week resolver (`get_semester_week` and the command fallback) -/

/-- Containment test from the source:
`semester.start_date <= checked_date <= semester.end_date`. -/
def inSemester (s : Semester) (dt : Date) : Bool :=
  dateLE s.start_date dt && dateLE dt s.end_date

/-- The week number computed by the source:
`(checked_date - semester.start_date).days // 7 + 1`.  Python `//` is
floor division, hence `Int.fdiv`. -/
def weekIndex (s : Semester) (dt : Date) : Int :=
  Int.fdiv ((rata dt : Int) - (rata s.start_date : Int)) 7 + 1

/-- Model of `get_semester_week`: first semester in list order whose range
contains the date wins. -/
def get_semester_week : List Semester → Date → Option (String × Int × String)
  | [], _ => none
  | s :: rest, dt =>
    if inSemester s dt then some (s.name, weekIndex s dt, weekdayName dt)
    else get_semester_week rest dt

/-- Sub-classification of a missed lookup. -/
inductive Reason where
  | OutOfSession
  | OutOfRange
  deriving DecidableEq, Repr

/-- The discriminated outcome of a resolution query. -/
inductive ResolutionResult where
  | Found (semester_name : String) (week_index : Int) (weekday_name : String)
  | NotFound (reason : Reason)
  deriving DecidableEq, Repr

/-- Python `min` over a list of year numbers (the source extracts them
from the `<h3>` headings; `min` on an empty list raises, so theorems about
`resolve` assume a nonempty list). -/
def listMin : List Nat → Nat
  | [] => 0
  | x :: xs => xs.foldl min x

/-- Python `max` over a list of year numbers. -/
def listMax : List Nat → Nat
  | [] => 0
  | x :: xs => xs.foldl max x

/-- Model of the resolution performed by the `whatweekisit` command body:
`get_semester_week` first; on a miss, classify by whether the queried year
lies between the minimum and maximum known year. -/
def resolve (semesters : List Semester) (known_years : List Nat) (dt : Date) :
    ResolutionResult :=
  match get_semester_week semesters dt with
  | some (n, w, wd) => .Found n w wd
  | none =>
    if listMin known_years ≤ dt.y ∧ dt.y ≤ listMax known_years then
      .NotFound .OutOfSession
    else .NotFound .OutOfRange

/-! ### Helper lemmas -/

theorem processItems_append (yearText title : String) (r : SemRec) (l1 l2 : List String) :
    processItems yearText title r (l1 ++ l2) =
      (match processItems yearText title r l1 with
        | Except.ok r2 => processItems yearText title r2 l2
        | Except.error e => Except.error e) := by
  induction l1 generalizing r with
  | nil => simp [processItems]
  | cons t ts ih =>
    simp only [List.cons_append, processItems]
    cases processItem yearText title r t with
    | ok r2 => exact ih r2
    | error e => rfl

theorem data_mk (l : List Char) : (String.mk l).data = l := rfl

theorem weekIndex_ediv (s : Semester) (dt : Date) :
    weekIndex s dt = ((rata dt : Int) - (rata s.start_date : Int)) / 7 + 1 := by
  unfold weekIndex
  rw [Int.fdiv_eq_ediv _ (by norm_num)]

theorem inSemester_rata (s : Semester) (dt : Date) (h : inSemester s dt = true) :
    rata s.start_date ≤ rata dt ∧ rata dt ≤ rata s.end_date := by
  unfold inSemester dateLE at h
  rw [Bool.and_eq_true, decide_eq_true_eq, decide_eq_true_eq] at h
  exact h

theorem weekIndex_ge_one (s : Semester) (dt : Date) (h : inSemester s dt = true) :
    1 ≤ weekIndex s dt := by
  have h1 := (inSemester_rata s dt h).1
  rw [weekIndex_ediv]
  omega

theorem gsw_none_of_no_match (sems : List Semester) (dt : Date)
    (h : ∀ s ∈ sems, inSemester s dt = false) :
    get_semester_week sems dt = none := by
  induction sems with
  | nil => rfl
  | cons s rest ih =>
    have hs : inSemester s dt = false := h s (by simp)
    simp only [get_semester_week, hs]
    rw [if_neg (by simp)]
    exact ih fun u hu => h u (List.mem_cons_of_mem _ hu)

theorem dchar_ne_slash (n : Nat) : dchar n ≠ '/' := by
  unfold dchar
  split <;> decide

theorem toDigit_dchar (n : Nat) (h : n ≤ 9) : toDigit (dchar n) = some n := by
  interval_cases n <;> decide

theorem no_slash_pad2 (n : Nat) : ∀ c ∈ pad2 n, c ≠ '/' := by
  intro c hc
  simp only [pad2, List.mem_cons, List.not_mem_nil, or_false] at hc
  rcases hc with rfl | rfl <;> exact dchar_ne_slash _

theorem no_slash_pad4 (n : Nat) : ∀ c ∈ pad4 n, c ≠ '/' := by
  intro c hc
  simp only [pad4, List.mem_cons, List.not_mem_nil, or_false] at hc
  rcases hc with rfl | rfl | rfl | rfl <;> exact dchar_ne_slash _

theorem splitSlash_no_slash (l : List Char) (h : ∀ c ∈ l, c ≠ '/') :
    splitSlash l = [l] := by
  induction l with
  | nil => rfl
  | cons c rest ih =>
    have hc : c ≠ '/' := h c (by simp)
    have ihr := ih fun u hu => h u (List.mem_cons_of_mem _ hu)
    simp [splitSlash, hc, ihr]

theorem splitSlash_append (xs ys : List Char) (h : ∀ c ∈ xs, c ≠ '/') :
    splitSlash (xs ++ '/' :: ys) = xs :: splitSlash ys := by
  induction xs with
  | nil => simp [splitSlash]
  | cons c rest ih =>
    have hc : c ≠ '/' := h c (by simp)
    have ihr := ih fun u hu => h u (List.mem_cons_of_mem _ hu)
    simp [splitSlash, hc, ihr]

theorem parseField_pad2 (n : Nat) (h : n ≤ 99) : parseField 2 (pad2 n) = some n := by
  have h1 : toDigit (dchar (n / 10)) = some (n / 10) := toDigit_dchar _ (by omega)
  have h2 : toDigit (dchar (n % 10)) = some (n % 10) := toDigit_dchar _ (by omega)
  simp [parseField, pad2, parseDigitsAux, h1, h2]
  omega

theorem parseYear_pad4 (n : Nat) (h : n ≤ 9999) : parseYear (pad4 n) = some n := by
  have h1 : toDigit (dchar (n / 1000)) = some (n / 1000) := toDigit_dchar _ (by omega)
  have h2 : toDigit (dchar (n / 100 % 10)) = some (n / 100 % 10) := toDigit_dchar _ (by omega)
  have h3 : toDigit (dchar (n / 10 % 10)) = some (n / 10 % 10) := toDigit_dchar _ (by omega)
  have h4 : toDigit (dchar (n % 10)) = some (n % 10) := toDigit_dchar _ (by omega)
  simp [parseYear, pad4, parseDigitsAux, h1, h2, h3, h4]
  omega

theorem yearChars_eq_pad4 (n : Nat) (h1 : 1000 ≤ n) (h2 : n ≤ 9999) :
    yearChars n = pad4 n := by
  unfold yearChars
  rw [if_neg (by omega), if_neg (by omega), if_neg (by omega), if_pos (by omega)]

theorem daysInMonth_le_31 (y m : Nat) : daysInMonth y m ≤ 31 := by
  unfold daysInMonth
  split <;> split <;> omega

/-! ### Claim theorems -/

/-- C1 (code behavior at the failing input): a recognized "Semester 1" block
whose items contain an end-date line but no "Classes start" line is not
rejected; `get_semester_times` succeeds and emits a record whose
`start_date` slot is `none`, even though the `Semester` NamedTuple declares
both dates as mandatory.  The claim that parse fails with a typed parse
error and emits no record for such a block is therefore false of the code. -/
theorem c1_missing_start_not_rejected :
    get_semester_times [Node.h3 "2024",
        Node.accordion ⟨"Semester 1", ["22 Nov â€“ Semester 1 classes end"]⟩] =
      Except.ok [⟨"Semester 1", none, some ⟨2024, 11, 22⟩⟩] := by
  decide

/-- C2 (code behavior at the failing input): a recognized block whose
"Classes start" line carries a later date than its end line is not
rejected; `get_semester_times` emits the record, and its start date
2024-03-10 is chronologically after its end date 2024-03-01.  The claimed
invariant that parse rejects any block with `start_date > end_date` is
therefore false of the code. -/
theorem c2_reversed_dates_not_rejected :
    get_semester_times [Node.h3 "2024",
        Node.accordion ⟨"Semester 1",
          ["10 Mar â€“ Classes start", "1 Mar â€“ Semester 1 ends"]⟩] =
      Except.ok [⟨"Semester 1", some ⟨2024, 3, 10⟩, some ⟨2024, 3, 1⟩⟩] ∧
    dateLE ⟨2024, 3, 10⟩ ⟨2024, 3, 1⟩ = false := by
  constructor
  · decide
  · decide

/-- C5: for every list item line containing the marker phrase
"Classes start", the derived start date is obtained by taking the text
preceding the en-dash-like separator (the mojibake token the source splits
on), replacing non-breaking spaces, trimming whitespace, and parsing the
result together with the enclosing year heading text as day,
abbreviated month and year in the fixed Australia/Brisbane zone; the
record after processing such a line stores exactly that date. -/
theorem c5_start_line_pipeline (yearText title text : String) (r : SemRec)
    (h : hasSub startMarker text = true) :
    get_date text yearText =
      strptimeDMY
        (String.mk (stripChars (replaceNbsp (beforeSep text.data))) ++ " " ++ yearText) ∧
    processItem yearText title r text =
      (match get_date text yearText with
        | some dt => Except.ok { r with start_date := some dt }
        | none => Except.error ParseErr.dateMalformed) := by
  refine ⟨rfl, ?_⟩
  simp [processItem, h]

/-- C5 witness: the pipeline evaluated on a concrete start line. -/
theorem c5_start_line_pipeline_witness :
    processItem "2024" "Semester 1" ⟨none, none⟩ "26 Feb â€“ Classes start" =
      Except.ok ⟨some ⟨2024, 2, 26⟩, none⟩ :=
  ((c5_start_line_pipeline "2024" "Semester 1" "26 Feb â€“ Classes start"
      ⟨none, none⟩ (by decide)).2).trans (by decide)

/-- C6: within one year section, an accordion block whose title is not
exactly "Semester 1" or "Semester 2" terminates the scan of that year:
no semester is emitted for that block or for any later block of the same
year, and the whole parse of the year section reduces to the parse of what
follows it. -/
theorem c6_unrecognized_title_stops_year (yearText : String) (a : Accordion)
    (rest : List Node)
    (h1 : a.title ≠ "Semester 1") (h2 : a.title ≠ "Semester 2") :
    scanYear yearText (Node.accordion a :: rest) = Except.ok [] ∧
    get_semester_times (Node.h3 yearText :: Node.accordion a :: rest) =
      get_semester_times rest := by
  have hs : scanYear yearText (Node.accordion a :: rest) = Except.ok [] := by
    simp only [scanYear]
    rw [if_neg (not_or.mpr ⟨h1, h2⟩)]
  refine ⟨hs, ?_⟩
  simp only [get_semester_times, hs]
  cases h : get_semester_times rest <;> simp

/-- C6 witness: a summer-session block hides the recognized block after it. -/
theorem c6_unrecognized_title_stops_year_witness :
    scanYear "2024" [Node.accordion ⟨"Summer Semester", []⟩,
        Node.accordion ⟨"Semester 1", []⟩] = Except.ok [] :=
  (c6_unrecognized_title_stops_year "2024" ⟨"Summer Semester", []⟩
      [Node.accordion ⟨"Semester 1", []⟩] (by decide) (by decide)).1

/-- C10: each list item matching a marker overwrites the date stored for
that marker, whatever the record currently holds, so when several lines
match the same marker the last matching line in document order determines
the Semester date: this holds for the start marker and for the end
markers alike (appending a final matching line forces the corresponding
date, independently of every earlier line); and a line containing both
"Classes start" and an end marker is handled by the start branch only,
because the start marker is tested first, so it sets the start date and
leaves the end date unchanged. -/
theorem c10_overwrite_last_match_start_first (yearText title : String)
    (r : SemRec) (textS textE : String) (dtS dtE : Date) (items : List String)
    (hsS : hasSub startMarker textS = true)
    (hgS : get_date textS yearText = some dtS)
    (hsE : hasSub startMarker textE = false)
    (hmE : (hasSub (endMarkerA title) textE || hasSub (endMarkerB title) textE) = true)
    (hgE : get_date textE yearText = some dtE) :
    processItem yearText title r textS = Except.ok ⟨some dtS, r.end_date⟩ ∧
    processItem yearText title r textE = Except.ok ⟨r.start_date, some dtE⟩ ∧
    processItems yearText title r (items ++ [textS]) =
      (match processItems yearText title r items with
        | Except.ok r2 => Except.ok ⟨some dtS, r2.end_date⟩
        | Except.error e => Except.error e) ∧
    processItems yearText title r (items ++ [textE]) =
      (match processItems yearText title r items with
        | Except.ok r2 => Except.ok ⟨r2.start_date, some dtE⟩
        | Except.error e => Except.error e) := by
  have hpiS : ∀ r2 : SemRec,
      processItem yearText title r2 textS = Except.ok ⟨some dtS, r2.end_date⟩ := by
    intro r2
    simp [processItem, hsS, hgS]
  have hpiE : ∀ r2 : SemRec,
      processItem yearText title r2 textE = Except.ok ⟨r2.start_date, some dtE⟩ := by
    intro r2
    simp [processItem, hsE, hmE, hgE]
  refine ⟨hpiS r, hpiE r, ?_, ?_⟩
  · rw [processItems_append]
    cases hp : processItems yearText title r items with
    | ok r2 => simp [processItems, hpiS r2]
    | error e => rfl
  · rw [processItems_append]
    cases hp : processItems yearText title r items with
    | ok r2 => simp [processItems, hpiE r2]
    | error e => rfl

/-- C10 witness: a later start line overrides an earlier one through a
line holding both markers, which is treated as the start line; and a
later end line overrides an earlier end line. -/
theorem c10_overwrite_last_match_start_first_witness :
    processItems "2024" "Semester 1" ⟨none, none⟩
        ["10 Mar â€“ Classes start", "26 Feb â€“ Classes start, Semester 1 ends"] =
      Except.ok ⟨some ⟨2024, 2, 26⟩, none⟩ ∧
    processItems "2024" "Semester 1" ⟨none, none⟩
        ["26 Feb â€“ Classes start", "18 Nov â€“ Semester 1 classes end",
          "22 Nov â€“ Semester 1 ends"] =
      Except.ok ⟨some ⟨2024, 2, 26⟩, some ⟨2024, 11, 22⟩⟩ :=
  ⟨((c10_overwrite_last_match_start_first "2024" "Semester 1" ⟨none, none⟩
      "26 Feb â€“ Classes start, Semester 1 ends" "22 Nov â€“ Semester 1 ends"
      ⟨2024, 2, 26⟩ ⟨2024, 11, 22⟩ ["10 Mar â€“ Classes start"]
      (by decide) (by decide) (by decide) (by decide) (by decide)).2.2.1).trans
    (by decide),
  ((c10_overwrite_last_match_start_first "2024" "Semester 1" ⟨none, none⟩
      "26 Feb â€“ Classes start, Semester 1 ends" "22 Nov â€“ Semester 1 ends"
      ⟨2024, 2, 26⟩ ⟨2024, 11, 22⟩
      ["26 Feb â€“ Classes start", "18 Nov â€“ Semester 1 classes end"]
      (by decide) (by decide) (by decide) (by decide) (by decide)).2.2.2).trans
    (by decide)⟩

/-- C3: whenever some semester in the list contains the queried date, the
resolver returns a Found result whose week index is the floor quotient by 7
of the whole days from that semester start to the date, plus one, and
whose weekday name is the full weekday name of the date (the returned
values come from a containing semester of the list); in particular the
week index of a semester at its own start date is 1, and at a date exactly
7 days after the start it is 2. -/
theorem c3_found_week_formula (sems : List Semester) (dt : Date)
    (h : ∃ s ∈ sems, inSemester s dt = true) :
    (∃ s ∈ sems, inSemester s dt = true ∧
        get_semester_week sems dt = some (s.name, weekIndex s dt, weekdayName dt)) ∧
    (∀ s : Semester, weekIndex s s.start_date = 1) ∧
    (∀ (s : Semester) (d7 : Date), rata d7 = rata s.start_date + 7 →
        weekIndex s d7 = 2) := by
  refine ⟨?_, ?_, ?_⟩
  · induction sems with
    | nil => simp at h
    | cons s rest ih =>
      by_cases hm : inSemester s dt = true
      · exact ⟨s, by simp, hm, by simp [get_semester_week, hm]⟩
      · have hm2 : inSemester s dt = false := by
          cases hb : inSemester s dt
          · rfl
          · exact absurd hb hm
        obtain ⟨t, ht, htm⟩ := h
        rcases List.mem_cons.mp ht with rfl | htr
        · exact absurd htm hm
        · obtain ⟨u, hu, hum, heq⟩ := ih ⟨t, htr, htm⟩
          refine ⟨u, List.mem_cons_of_mem _ hu, hum, ?_⟩
          simp only [get_semester_week, hm2]
          rw [if_neg (by simp)]
          exact heq
  · intro s
    rw [weekIndex_ediv]
    omega
  · intro s d7 h7
    rw [weekIndex_ediv, h7]
    omega

/-- C3 witness: the single-semester list at a date one week into the
semester. -/
theorem c3_found_week_formula_witness :
    ∃ s ∈ [(⟨"Semester 1", ⟨2024, 2, 26⟩, ⟨2024, 6, 2⟩⟩ : Semester)],
      inSemester s ⟨2024, 3, 4⟩ = true ∧
      get_semester_week [⟨"Semester 1", ⟨2024, 2, 26⟩, ⟨2024, 6, 2⟩⟩] ⟨2024, 3, 4⟩ =
        some (s.name, weekIndex s ⟨2024, 3, 4⟩, weekdayName ⟨2024, 3, 4⟩) :=
  (c3_found_week_formula [⟨"Semester 1", ⟨2024, 2, 26⟩, ⟨2024, 6, 2⟩⟩] ⟨2024, 3, 4⟩
      ⟨⟨"Semester 1", ⟨2024, 2, 26⟩, ⟨2024, 6, 2⟩⟩, by decide, by decide⟩).1

/-- C4: when no semester range contains the queried date, the resolver
returns NotFound, classified OutOfSession when the queried year lies
between the minimum and maximum known years and OutOfRange otherwise. -/
theorem c4_notfound_classification (sems : List Semester) (years : List Nat)
    (dt : Date) (_hne : years ≠ [])
    (h : ∀ s ∈ sems, inSemester s dt = false) :
    (listMin years ≤ dt.y ∧ dt.y ≤ listMax years →
        resolve sems years dt = ResolutionResult.NotFound Reason.OutOfSession) ∧
    (¬(listMin years ≤ dt.y ∧ dt.y ≤ listMax years) →
        resolve sems years dt = ResolutionResult.NotFound Reason.OutOfRange) := by
  have hnone := gsw_none_of_no_match sems dt h
  constructor <;> intro hc <;> simp [resolve, hnone, hc]

/-- C4 witness: a document spanning 2020-2025 queried in 2027 is
OutOfRange. -/
theorem c4_notfound_classification_witness :
    resolve [] [2020, 2025] ⟨2027, 1, 1⟩ =
      ResolutionResult.NotFound Reason.OutOfRange :=
  (c4_notfound_classification [] [2020, 2025] ⟨2027, 1, 1⟩ (by decide)
      (by simp)).2 (by decide)

/-- C7: semesters are checked in list order, so when several ranges
contain the queried date, the Found result is built from the
earliest-listed matching semester and every later match is ignored. -/
theorem c7_first_match_wins (l1 l2 : List Semester) (s : Semester) (dt : Date)
    (hpre : ∀ t ∈ l1, inSemester t dt = false)
    (hs : inSemester s dt = true) :
    get_semester_week (l1 ++ s :: l2) dt =
      some (s.name, weekIndex s dt, weekdayName dt) := by
  induction l1 with
  | nil => simp [get_semester_week, hs]
  | cons t ts ih =>
    have ht : inSemester t dt = false := hpre t (by simp)
    simp only [List.cons_append, get_semester_week, ht]
    rw [if_neg (by simp)]
    exact ih fun u hu => hpre u (List.mem_cons_of_mem _ hu)

/-- C7 witness: two overlapping semesters; the first listed one supplies
the result. -/
theorem c7_first_match_wins_witness :
    get_semester_week
        [⟨"Semester 1", ⟨2024, 2, 26⟩, ⟨2024, 6, 2⟩⟩,
          ⟨"Semester 2", ⟨2024, 2, 20⟩, ⟨2024, 7, 1⟩⟩] ⟨2024, 3, 4⟩ =
      some ("Semester 1", 2, "Monday") :=
  (c7_first_match_wins [] [⟨"Semester 2", ⟨2024, 2, 20⟩, ⟨2024, 7, 1⟩⟩]
      ⟨"Semester 1", ⟨2024, 2, 26⟩, ⟨2024, 6, 2⟩⟩ ⟨2024, 3, 4⟩
      (by simp) (by decide)).trans (by decide)

/-- C8 counterexample: the round trip is not the identity on every civil
date.  At 0999-01-01 the formatter emits the year unpadded as three
digits (glibc `%Y`), and the parser's `%Y` field requires exactly four
digits, so parsing back fails instead of returning the date (in the
source, a `ValueError` from `strptime`). -/
theorem c8_roundtrip_below_1000_counterexample :
    string_to_date (date_to_string ⟨999, 1, 1⟩) ≠ some ⟨999, 1, 1⟩ := by
  decide

/-- C8 (amended): formatting a civil date with the day/month/year
formatter and parsing the string back with the command-layer date parser
yields the same civil date for every date whose year has four digits
(1000 ≤ year ≤ 9999, month and day in range); for years below 1000 the
unpadded formatted year is rejected by the 4-digit `%Y` parse. -/
theorem c8_format_parse_roundtrip (dt : Date)
    (hm : 1 ≤ dt.m ∧ dt.m ≤ 12)
    (hd : 1 ≤ dt.d ∧ dt.d ≤ daysInMonth dt.y dt.m)
    (hy : 1000 ≤ dt.y ∧ dt.y ≤ 9999) :
    string_to_date (date_to_string dt) = some dt := by
  have hd31 : dt.d ≤ 31 := le_trans hd.2 (daysInMonth_le_31 dt.y dt.m)
  have hsplit : splitSlash (pad2 dt.d ++ ('/' :: (pad2 dt.m ++ ('/' :: pad4 dt.y)))) =
      [pad2 dt.d, pad2 dt.m, pad4 dt.y] := by
    rw [splitSlash_append _ _ (no_slash_pad2 _),
      splitSlash_append _ _ (no_slash_pad2 _),
      splitSlash_no_slash _ (no_slash_pad4 _)]
  simp only [date_to_string, string_to_date, data_mk,
    yearChars_eq_pad4 dt.y (by omega) (by omega), hsplit,
    parseField_pad2 dt.d (by omega), parseField_pad2 dt.m (by omega),
    parseYear_pad4 dt.y (by omega)]
  rw [if_pos ⟨hd.1, hd31, hm.1, hm.2, by omega, hd.2⟩]

/-- C8 witness: the round trip evaluated at 2024-02-26. -/
theorem c8_format_parse_roundtrip_witness :
    string_to_date (date_to_string ⟨2024, 2, 26⟩) = some ⟨2024, 2, 26⟩ :=
  c8_format_parse_roundtrip ⟨2024, 2, 26⟩ (by decide) (by decide) (by decide)

/-- C9: every Found result of the resolver carries a week index of at
least 1, since containment forces a nonnegative day difference. -/
theorem c9_found_week_at_least_one (sems : List Semester) (dt : Date)
    (name wd : String) (w : Int)
    (h : get_semester_week sems dt = some (name, w, wd)) : 1 ≤ w := by
  induction sems with
  | nil => simp [get_semester_week] at h
  | cons s rest ih =>
    by_cases hm : inSemester s dt = true
    · simp [get_semester_week, hm] at h
      rw [← h.2.1]
      exact weekIndex_ge_one s dt hm
    · have hm2 : inSemester s dt = false := by
        cases hb : inSemester s dt
        · rfl
        · exact absurd hb hm
      simp only [get_semester_week, hm2] at h
      rw [if_neg (by simp)] at h
      exact ih h

/-- C9 witness: a Found result at a semester start date has week index 1,
which is at least 1. -/
theorem c9_found_week_at_least_one_witness :
    get_semester_week [⟨"Semester 1", ⟨2024, 2, 26⟩, ⟨2024, 6, 2⟩⟩] ⟨2024, 2, 26⟩ =
      some ("Semester 1", 1, "Monday") ∧ (1 : Int) ≤ 1 :=
  ⟨by decide,
    c9_found_week_at_least_one [⟨"Semester 1", ⟨2024, 2, 26⟩, ⟨2024, 6, 2⟩⟩]
      ⟨2024, 2, 26⟩ "Semester 1" "Monday" 1 (by decide)⟩

end Whatweekisit
